import Mathlib

/-!
Verification development for the price-tracker application (`src/main.py`).

The Python source is shallowly embedded: pure functions become Lean
functions over `String`/`ℚ`/`Option`; external collaborators (HTTP fetch,
BeautifulSoup selector queries, regex match extraction, the Playwright
page, SQLite) are modelled as explicit environment inputs, while every
piece of the repository's own logic is translated line by line.  Python
float values are modelled as rationals (the spec treats prices as
decimals); Python truthiness of a float is `≠ 0`, of an optional is
`isSome` plus truthiness of the value, and of a string is `≠ ""`.
-/

namespace PriceTracker

/-- Numeric value of a list of ASCII digits, as Python accumulates it
(most significant first).  The empty list yields 0. -/
def digitsVal (cs : List Char) : Nat :=
  cs.foldl (fun a c => a * 10 + (c.toNat - 48)) 0

/-- Split a character list at every `'.'` (the semantics of Python's
`s.split('.')`): the empty list yields `[[]]`, and `n` dots yield
`n + 1` pieces. -/
def splitOnDot : List Char → List (List Char)
  | [] => [[]]
  | c :: cs =>
      if c = '.' then [] :: splitOnDot cs
      else
        match splitOnDot cs with
        | [] => [[c]]
        | p :: ps => (c :: p) :: ps

/-- Model of Python `float` restricted to strings made of ASCII digits
and periods (the only characters that can survive `parse_price_text`'s
cleaning): accepted iff there is at most one period and at least one
digit; value is the usual decimal reading.  `float("")`, `float(".")`
and `float("1.2.3")` raise, i.e. yield `none`. -/
def pyFloat (cs : List Char) : Option ℚ :=
  match splitOnDot cs with
  | [a] => if a = [] then none else some ((digitsVal a : ℚ))
  | [a, b] =>
      if a = [] ∧ b = [] then none
      else some ((digitsVal a : ℚ) + (digitsVal b : ℚ) / (10 : ℚ) ^ b.length)
  | _ => none

/-- Characters kept by the first cleaning step of `parse_price_text`
(`re.sub(r'[^\d.,]', '', ...)`): digits, period, comma. -/
def isPriceChar (c : Char) : Bool :=
  c.isDigit || c == '.' || c == ','

/-- `parse_price_text` (src/main.py:411-427): return `None` on falsy
input; strip every character that is not a digit, period or comma; strip
all commas; `float(...)` the remainder, `None` on failure.  (The source's
`if '.' in text` branch runs `float(text)` in both arms.) -/
def parse_price_text (text : String) : Option ℚ :=
  if text = "" then none
  else
    let cleaned := (text.toList.filter isPriceChar).filter (fun c => c != ',')
    pyFloat cleaned

theorem digitsVal_cast_nonneg (cs : List Char) : (0 : ℚ) ≤ (digitsVal cs : ℚ) := by
  exact_mod_cast Nat.zero_le _

theorem pyFloat_nonneg {cs : List Char} {q : ℚ} (h : pyFloat cs = some q) : 0 ≤ q := by
  unfold pyFloat at h
  split at h
  · split at h
    · exact absurd h (by simp)
    · rename_i a _ _
      have : (digitsVal a : ℚ) = q := by simpa using h
      rw [← this]; exact digitsVal_cast_nonneg a
  · split at h
    · exact absurd h (by simp)
    · rename_i a b _ _
      have hq : (digitsVal a : ℚ) + (digitsVal b : ℚ) / (10 : ℚ) ^ b.length = q := by
        simpa using h
      rw [← hq]
      positivity
  · exact absurd h (by simp)

theorem parse_price_text_nonneg {t : String} {q : ℚ}
    (h : parse_price_text t = some q) : 0 ≤ q := by
  unfold parse_price_text at h
  split at h
  · exact absurd h (by simp)
  · exact pyFloat_nonneg h

theorem keptChar_eq (c : Char) :
    ((c != ',') && isPriceChar c) = (c.isDigit || c == '.') := by
  by_cases hc : c = ','
  · subst hc; decide
  · have hb : (c == ',') = false := by simpa using hc
    simp [isPriceChar, hb, bne]

/-- Claim C4: `parse_price_text` strips every character that is not a
digit, period or comma, then strips all commas, then parses the remainder
as a decimal (so the surviving characters are exactly the digits and
periods of the input, and commas act purely as ignored thousands
separators), returning absent on empty input or parse failure; concretely
`parse_price_text "1,234.56" = 1234.56`, `parse_price_text "19.99" =
19.99`, and `""`, `"abc"`, `"$"` all map to absent. -/
theorem claim_C4 (t : String) :
    (t = "" → parse_price_text t = none) ∧
    (t ≠ "" →
      parse_price_text t = pyFloat (t.toList.filter (fun c => c.isDigit || c == '.'))) ∧
    parse_price_text "1,234.56" = some (1234.56 : ℚ) ∧
    parse_price_text "19.99" = some (19.99 : ℚ) ∧
    parse_price_text "" = none ∧
    parse_price_text "abc" = none ∧
    parse_price_text "$" = none := by
  refine ⟨?_, ?_, ?_, ?_, ?_, ?_, ?_⟩
  · intro h; subst h; simp [parse_price_text]
  · intro h
    unfold parse_price_text
    rw [if_neg h, List.filter_filter]
    exact congrArg pyFloat (List.filter_congr (fun c _ => keptChar_eq c))
  · simp +decide [parse_price_text, pyFloat, splitOnDot, digitsVal, isPriceChar,
      List.filter] <;> norm_num
  · simp +decide [parse_price_text, pyFloat, splitOnDot, digitsVal, isPriceChar,
      List.filter] <;> norm_num
  · simp [parse_price_text]
  · simp +decide [parse_price_text, pyFloat, splitOnDot, digitsVal, isPriceChar,
      List.filter]
  · simp +decide [parse_price_text, pyFloat, splitOnDot, digitsVal, isPriceChar,
      List.filter]

/-- Witness for C4: the claim's theorem applied at the concrete input
`"1,234.56"`, discharging the nonemptiness hypothesis there. -/
theorem claim_C4_witness :
    parse_price_text "1,234.56"
        = pyFloat ("1,234.56".toList.filter (fun c => c.isDigit || c == '.')) ∧
    parse_price_text "1,234.56" = some (1234.56 : ℚ) :=
  ⟨(claim_C4 "1,234.56").2.1 (by decide), (claim_C4 "1,234.56").2.2.1⟩

/-! ### Extraction layer

`requests.get` + `BeautifulSoup`, the regex engine, and the Playwright
page are external collaborators; they are modelled as environment
records.  A `Soup` answers CSS-selector queries with the matched
elements' text contents in document order (`soup.select`) and answers
regex scans of the page's full text with the list of matches in order
(`re.findall(pattern, soup.get_text())`).  A `PwPage` answers
`page.query_selector(sel)` followed by `element.inner_text()`: `.error`
models a raised selector exception, `.ok none` a missing element,
`.ok (some t)` an element with rendered text `t`. -/

/-- Python truthiness of an optional float: `None` and `0.0` are falsy. -/
def truthyQ : Option ℚ → Bool
  | none => false
  | some p => decide (p ≠ 0)

/-- Python truthiness of an optional string (the `selector` argument):
`None` and `""` are falsy. -/
def strTruthy : Option String → Bool
  | none => false
  | some s => decide (s ≠ "")

structure Soup where
  select : String → List String
  findall : String → List String

structure PwPage where
  query : String → Except Unit (Option String)

/-- The fixed selector list of `extract_price_from_soup`
(src/main.py:338-342). -/
def soup_common_selectors : List String :=
  [".price", "#price", ".product-price", ".current-price",
   "[data-price]", ".price-current", ".price-now",
   ".offer-price", ".sale-price", ".final-price"]

/-- The fixed selector list of `get_price_with_playwright`
(src/main.py:387-390). -/
def pw_common_selectors : List String :=
  [".price", "#price", ".product-price", ".current-price",
   "[data-price]", ".price-current", ".price-now"]

/-- The regex pattern list of `extract_price_from_soup`
(src/main.py:321-327), kept as data; matching itself is answered by the
`Soup.findall` oracle. -/
def price_patterns : List String :=
  ["\\$[\\d,]+\\.?\\d*",
   "USD\\s*[\\d,]+\\.?\\d*",
   "[\\d,]+\\.?\\d*\\s*USD",
   "Price:\\s*\\$?[\\d,]+\\.?\\d*",
   "[\\d,]+\\.?\\d*"]

/-- `for element in elements: price = parse_price_text(element.get_text());
if price: return price` — first truthy parse wins, falsy parses are
skipped (src/main.py:332-335 and 346-349). -/
def first_truthy_parse : List String → Option ℚ
  | [] => none
  | t :: ts =>
      match parse_price_text t with
      | some p => if p ≠ 0 then some p else first_truthy_parse ts
      | none => first_truthy_parse ts

/-- The common-selector loop of `extract_price_from_soup`
(src/main.py:344-349). -/
def try_selectors (soup : Soup) : List String → Option ℚ
  | [] => none
  | s :: rest =>
      match first_truthy_parse (soup.select s) with
      | some p => some p
      | none => try_selectors soup rest

/-- `for match in matches: price = parse_price_text(match);
if price and price > 0: return price` (src/main.py:355-358). -/
def first_pos_parse : List String → Option ℚ
  | [] => none
  | m :: ms =>
      match parse_price_text m with
      | some p => if 0 < p then some p else first_pos_parse ms
      | none => first_pos_parse ms

/-- The regex-pattern loop of `extract_price_from_soup`
(src/main.py:353-358). -/
def scan_patterns (soup : Soup) : List String → Option ℚ
  | [] => none
  | pat :: rest =>
      match first_pos_parse (soup.findall pat) with
      | some p => some p
      | none => scan_patterns soup rest

/-- The `if selector:` block of `extract_price_from_soup`
(src/main.py:330-335): the caller-supplied selector is probed only when
it is truthy (neither `None` nor `""`). -/
def extract_custom (soup : Soup) (selector : Option String) : Option ℚ :=
  if strTruthy selector then first_truthy_parse (soup.select (selector.getD ""))
  else none

/-- `extract_price_from_soup` (src/main.py:319-360): caller-supplied
selector first (skipped when the selector is `None` or `""`), then the
fixed common selectors, then the regex patterns over the full text;
first hit wins, `None` when everything fails. -/
def extract_price_from_soup (soup : Soup) (selector : Option String) : Option ℚ :=
  match extract_custom soup selector with
  | some p => some p
  | none =>
      match try_selectors soup soup_common_selectors with
      | some p => some p
      | none => scan_patterns soup price_patterns

/-- One selector probe of `get_price_with_playwright`
(src/main.py:375-384 and 393-402): query the element, read its inner
text, parse; a raised exception, a missing element, or a falsy parse all
mean "try the next strategy". -/
def try_pw_selector (page : PwPage) (sel : String) : Option ℚ :=
  match page.query sel with
  | .error _ => none
  | .ok none => none
  | .ok (some t) =>
      match parse_price_text t with
      | some p => if p ≠ 0 then some p else none
      | none => none

/-- The common-selector loop of `get_price_with_playwright`
(src/main.py:392-402). -/
def try_pw_selectors (page : PwPage) : List String → Option ℚ
  | [] => none
  | s :: rest =>
      match try_pw_selector page s with
      | some p => some p
      | none => try_pw_selectors page rest

/-- The `if selector:` block of `get_price_with_playwright`
(src/main.py:374-384): the caller-supplied selector is probed only when
truthy. -/
def pw_custom (page : PwPage) (selector : Option String) : Option ℚ :=
  if strTruthy selector then try_pw_selector page (selector.getD "")
  else none

/-- `get_price_with_playwright` (src/main.py:362-409): `.error` on the
page environment models a launch/navigation failure, which the outer
`except` turns into `None`; otherwise the caller selector (when truthy)
and then the fixed selector list are probed, and `None` is returned when
all probes fail. -/
def get_price_with_playwright (pw : Except Unit PwPage) (selector : Option String) :
    Option ℚ :=
  match pw with
  | .error _ => none
  | .ok page =>
      match pw_custom page selector with
      | some p => some p
      | none => try_pw_selectors page pw_common_selectors

/-- Environment of one `get_price` call: the outcome of
`requests.get(url, ...).raise_for_status()` plus parsing into a soup
(`.error` = network failure / timeout / non-2xx), and the Playwright
environment used by the fallback. -/
structure FetchEnv where
  fetch : Except Unit Soup
  pw : Except Unit PwPage

/-- `get_price` (src/main.py:291-317): the whole body sits in one
`try`; a fetch exception is caught and yields `None`.  On a successful
fetch, the static extraction result is returned when truthy, otherwise
`get_price_with_playwright` is called. -/
def get_price (env : FetchEnv) (selector : Option String) : Option ℚ :=
  match env.fetch with
  | .error _ => none
  | .ok soup =>
      let price := extract_price_from_soup soup selector
      if truthyQ price then price else get_price_with_playwright env.pw selector

theorem first_truthy_parse_pos {ts : List String} {p : ℚ}
    (h : first_truthy_parse ts = some p) : 0 < p := by
  induction ts with
  | nil => exact absurd h (by simp [first_truthy_parse])
  | cons t ts ih =>
      unfold first_truthy_parse at h
      split at h
      · rename_i q hq
        split at h
        · rename_i hne
          cases h
          exact lt_of_le_of_ne (parse_price_text_nonneg hq) (Ne.symm hne)
        · exact ih h
      · exact ih h

theorem try_selectors_pos {soup : Soup} {sels : List String} {p : ℚ}
    (h : try_selectors soup sels = some p) : 0 < p := by
  induction sels with
  | nil => exact absurd h (by simp [try_selectors])
  | cons s rest ih =>
      unfold try_selectors at h
      split at h
      · rename_i q hq; cases h; exact first_truthy_parse_pos hq
      · exact ih h

theorem first_pos_parse_pos {ms : List String} {p : ℚ}
    (h : first_pos_parse ms = some p) : 0 < p := by
  induction ms with
  | nil => exact absurd h (by simp [first_pos_parse])
  | cons m ms ih =>
      unfold first_pos_parse at h
      split at h
      · rename_i q hq
        split at h
        · rename_i hpos; cases h; exact hpos
        · exact ih h
      · exact ih h

theorem scan_patterns_pos {soup : Soup} {pats : List String} {p : ℚ}
    (h : scan_patterns soup pats = some p) : 0 < p := by
  induction pats with
  | nil => exact absurd h (by simp [scan_patterns])
  | cons pat rest ih =>
      unfold scan_patterns at h
      split at h
      · rename_i q hq; cases h; exact first_pos_parse_pos hq
      · exact ih h

theorem extract_custom_pos {soup : Soup} {sel : Option String} {p : ℚ}
    (h : extract_custom soup sel = some p) : 0 < p := by
  unfold extract_custom at h
  split at h
  · exact first_truthy_parse_pos h
  · exact absurd h (by simp)

theorem extract_price_from_soup_pos {soup : Soup} {sel : Option String} {p : ℚ}
    (h : extract_price_from_soup soup sel = some p) : 0 < p := by
  unfold extract_price_from_soup at h
  cases hc : extract_custom soup sel with
  | some q => rw [hc] at h; cases h; exact extract_custom_pos hc
  | none =>
      rw [hc] at h
      cases ht : try_selectors soup soup_common_selectors with
      | some q => rw [ht] at h; cases h; exact try_selectors_pos ht
      | none => rw [ht] at h; exact scan_patterns_pos h

theorem try_pw_selector_pos {page : PwPage} {s : String} {p : ℚ}
    (h : try_pw_selector page s = some p) : 0 < p := by
  unfold try_pw_selector at h
  split at h
  · exact absurd h (by simp)
  · exact absurd h (by simp)
  · rename_i t
    split at h
    · rename_i q hq
      split at h
      · rename_i hne
        cases h
        exact lt_of_le_of_ne (parse_price_text_nonneg hq) (Ne.symm hne)
      · exact absurd h (by simp)
    · exact absurd h (by simp)

theorem try_pw_selectors_pos {page : PwPage} {sels : List String} {p : ℚ}
    (h : try_pw_selectors page sels = some p) : 0 < p := by
  induction sels with
  | nil => exact absurd h (by simp [try_pw_selectors])
  | cons s rest ih =>
      unfold try_pw_selectors at h
      split at h
      · rename_i q hq; cases h; exact try_pw_selector_pos hq
      · exact ih h

theorem pw_custom_pos {page : PwPage} {sel : Option String} {p : ℚ}
    (h : pw_custom page sel = some p) : 0 < p := by
  unfold pw_custom at h
  split at h
  · exact try_pw_selector_pos h
  · exact absurd h (by simp)

theorem get_price_with_playwright_pos {pw : Except Unit PwPage} {sel : Option String}
    {p : ℚ} (h : get_price_with_playwright pw sel = some p) : 0 < p := by
  unfold get_price_with_playwright at h
  cases pw with
  | error e => exact absurd h (by simp)
  | ok page =>
      dsimp only at h
      cases hc : pw_custom page sel with
      | some q => rw [hc] at h; cases h; exact pw_custom_pos hc
      | none => rw [hc] at h; exact try_pw_selectors_pos h

/-- Every price `get_price` ever returns is strictly positive: the
parser never produces a negative value (the minus sign is stripped), and
every return site of the two extractors gates on truthiness or on
`> 0`. -/
theorem get_price_pos {env : FetchEnv} {sel : Option String} {p : ℚ}
    (h : get_price env sel = some p) : 0 < p := by
  unfold get_price at h
  cases hf : env.fetch with
  | error e => rw [hf] at h; exact absurd h (by simp)
  | ok soup =>
      rw [hf] at h
      simp only [] at h
      split at h
      · cases hx : extract_price_from_soup soup sel with
        | none => rw [hx] at h; exact absurd h (by simp)
        | some q => rw [hx] at h; cases h; exact extract_price_from_soup_pos hx
      · exact get_price_with_playwright_pos h

theorem get_price_ok_eq (soup : Soup) (pw : Except Unit PwPage) (sel : Option String) :
    get_price ⟨Except.ok soup, pw⟩ sel
      = if truthyQ (extract_price_from_soup soup sel) then
          extract_price_from_soup soup sel
        else get_price_with_playwright pw sel := rfl

/-- Claim C5: on a successful static fetch, if the static extractor
returns a present price then `get_price` returns exactly that price and
the rendered extractor is never invoked (the result does not depend on
the Playwright environment at all); if the static extractor returns
absent, `get_price` returns whatever the rendered extractor returns; and
when both are absent, `get_price` is absent. -/
theorem claim_C5 (soup : Soup) (pw pw2 : Except Unit PwPage) (sel : Option String) :
    (∀ p : ℚ, extract_price_from_soup soup sel = some p →
        get_price ⟨Except.ok soup, pw⟩ sel = some p ∧
        get_price ⟨Except.ok soup, pw⟩ sel = get_price ⟨Except.ok soup, pw2⟩ sel) ∧
    (extract_price_from_soup soup sel = none →
        get_price ⟨Except.ok soup, pw⟩ sel = get_price_with_playwright pw sel) ∧
    (extract_price_from_soup soup sel = none →
        get_price_with_playwright pw sel = none →
        get_price ⟨Except.ok soup, pw⟩ sel = none) := by
  refine ⟨?_, ?_, ?_⟩
  · intro p hp
    have hpos := extract_price_from_soup_pos hp
    have htr : truthyQ (extract_price_from_soup soup sel) = true := by
      rw [hp]; simpa [truthyQ] using ne_of_gt hpos
    rw [get_price_ok_eq, get_price_ok_eq, htr, if_pos rfl]
    exact ⟨hp, rfl⟩
  · intro hn
    rw [get_price_ok_eq, hn]
    simp [truthyQ]
  · intro hn hr
    rw [get_price_ok_eq, hn]
    simpa [truthyQ] using hr

/-- Concrete soup whose `.price` element carries the text `$19.99`. -/
def wSoupC5 : Soup :=
  { select := fun s => if s == ".price" then ["$19.99"] else [],
    findall := fun _ => [] }

/-- Concrete Playwright page with no elements at all. -/
def wPageC5 : PwPage := { query := fun _ => Except.ok none }

theorem wSoupC5_extract : extract_price_from_soup wSoupC5 none = some (19.99 : ℚ) := by
  simp +decide [extract_price_from_soup, extract_custom, strTruthy, try_selectors,
    soup_common_selectors, first_truthy_parse, wSoupC5, parse_price_text, pyFloat,
    splitOnDot, digitsVal, isPriceChar, List.filter] <;> norm_num

/-- Witness for C5: the claim's theorem applied at a concrete soup whose
static extraction yields `19.99`, with two different rendered
environments. -/
theorem claim_C5_witness :
    get_price ⟨Except.ok wSoupC5, Except.error ()⟩ none = some (19.99 : ℚ) ∧
    get_price ⟨Except.ok wSoupC5, Except.error ()⟩ none
      = get_price ⟨Except.ok wSoupC5, Except.ok wPageC5⟩ none :=
  (claim_C5 wSoupC5 (Except.error ()) (Except.ok wPageC5) none).1 (19.99 : ℚ)
    wSoupC5_extract

/-- Concrete Playwright page whose every queried element renders the
text `$5.00`; a rendered extraction against it yields `5`. -/
def cexPageC1 : PwPage := { query := fun _ => Except.ok (some "$5.00") }

theorem cexPageC1_price :
    get_price_with_playwright (Except.ok cexPageC1) none = some (5 : ℚ) := by
  simp +decide [get_price_with_playwright, pw_custom, strTruthy, try_pw_selectors,
    pw_common_selectors, try_pw_selector, cexPageC1, parse_price_text, pyFloat,
    splitOnDot, digitsVal, isPriceChar, List.filter] <;> norm_num

/-- Counterexample to C1 as stated: it is not true that a fetch error
makes `get_price` recover through the rendered extractor — at an
environment whose fetch fails but whose rendered page would yield `5`,
`get_price` returns absent instead of the rendered result, because the
fetch exception is caught by the `try/except` that wraps the whole body
of `get_price`, including the Playwright fallback call. -/
theorem claim_C1_counterexample :
    ¬ ∀ (env : FetchEnv) (sel : Option String) (e : Unit),
        env.fetch = Except.error e →
        get_price env sel = get_price_with_playwright env.pw sel := by
  intro hclaim
  have h := hclaim ⟨Except.error (), Except.ok cexPageC1⟩ none () rfl
  rw [cexPageC1_price] at h
  exact absurd h (by simp [get_price])

/-- Claim C1 (amended): when the static fetch fails (network failure,
timeout or non-2xx status), `get_price` catches the exception and
returns absent immediately, without invoking the rendered extractor; the
rendered fallback runs only when the fetch succeeds but the static
document yields no price. -/
theorem claim_C1 (env : FetchEnv) (sel : Option String) (e : Unit)
    (h : env.fetch = Except.error e) : get_price env sel = none := by
  unfold get_price
  rw [h]

/-- Witness for C1 (amended): the theorem applied at a concrete failing
fetch whose rendered page would have produced a price. -/
theorem claim_C1_witness :
    get_price ⟨Except.error (), Except.ok cexPageC1⟩ none = none :=
  claim_C1 ⟨Except.error (), Except.ok cexPageC1⟩ none () rfl

/-! ### Store and scheduler

The SQLite store is modelled as two lists mirroring the two tables of
`init_database` (src/main.py:38-70): `products` (with the schema's
`UNIQUE` constraint on `url` modelled at the `add_product` boundary,
where SQLite raises `IntegrityError`) and `price_history`.  Timestamps
are opaque naturals.  `active INTEGER DEFAULT 1` is a boolean. -/

structure Product where
  pid : Nat
  name : String
  url : String
  selector : Option String
  target_price : Option ℚ
  current_price : Option ℚ
  last_checked : Option Nat
  active : Bool
  deriving DecidableEq

structure HistRow where
  product_id : Nat
  price : ℚ
  deriving DecidableEq

structure DB where
  products : List Product
  history : List HistRow
  deriving DecidableEq

/-- A notification event emitted by `show_notification`
(src/main.py:507 and 510): the message carries the product name and the
new price. -/
inductive PriceAlert
  | drop (name : String) (price : ℚ)
  | target (name : String) (price : ℚ)
  deriving DecidableEq

/-- The price-drop condition of `check_all_prices` (src/main.py:506):
`if old_price and new_price < old_price and self.notify_price_drop.get()`.
A `None` or `0.0` old price is falsy. -/
def price_drop_cond : Option ℚ → ℚ → Bool → Bool
  | none, _, _ => false
  | some po, np, enabled => decide (po ≠ 0) && decide (np < po) && enabled

/-- The target-reached condition of `check_all_prices`
(src/main.py:509): `if target_price and new_price <= target_price and
self.notify_target_reached.get()`.  A `None` or `0.0` target is falsy. -/
def target_cond : Option ℚ → ℚ → Bool → Bool
  | none, _, _ => false
  | some t, np, enabled => decide (t ≠ 0) && decide (np ≤ t) && enabled

/-- The `UPDATE products SET current_price = ?, last_checked = ?
WHERE id = ?` statement (src/main.py:493-497): every row whose id
matches is updated. -/
def upd_price (now : Nat) (v : ℚ) (pid : Nat) (ps : List Product) : List Product :=
  ps.map (fun q =>
    if q.pid = pid then { q with current_price := some v, last_checked := some now }
    else q)

/-- The body of the per-product loop of `check_all_prices`
(src/main.py:487-513) for one product: `res` is the outcome of
`self.get_price(url, selector)` (`.error` models a raised exception,
caught by the per-product `except`, which leaves the state untouched).
On a truthy new price the product row is updated, a history row is
inserted, and the two notification conditions are evaluated against the
old price and target taken from the cycle's initial snapshot. -/
def check_one (notifyDrop notifyTarget : Bool) (now : Nat)
    (res : Except Unit (Option ℚ)) (st : DB × List PriceAlert) (p : Product) :
    DB × List PriceAlert :=
  match res with
  | .error _ => st
  | .ok newPrice =>
      if truthyQ newPrice then
        let v := newPrice.getD 0
        (⟨upd_price now v p.pid st.1.products, st.1.history ++ [⟨p.pid, v⟩]⟩,
         st.2
           ++ (if price_drop_cond p.current_price v notifyDrop then
                 [PriceAlert.drop p.name v] else [])
           ++ (if target_cond p.target_price v notifyTarget then
                 [PriceAlert.target p.name v] else []))
      else st

/-- `check_all_prices` (src/main.py:479-516): snapshot the active
products, then run the per-product loop over the snapshot, threading the
store; `detect` gives each product's detection outcome, keyed by product
id.  Returns the final store and the emitted notifications in order. -/
def check_all_prices (notifyDrop notifyTarget : Bool) (now : Nat)
    (detect : Nat → Except Unit (Option ℚ)) (db : DB) : DB × List PriceAlert :=
  (db.products.filter (fun p => p.active)).foldl
    (fun st p => check_one notifyDrop notifyTarget now (detect p.pid) st p) (db, [])

/-- Claim C3: for a detected (hence positive) new price, the price-drop
notification fires iff the old price is present and the new price is
strictly below it and the setting is enabled; the target notification
fires iff a target is present and the new price is at or below it and
its setting is enabled; the two conditions are independent and both can
fire on the same observation (e.g. old 10, new 8, target 9). -/
theorem claim_C3 (old_price target_price : Option ℚ) (np : ℚ)
    (notifyDrop notifyTarget : Bool) (hpos : 0 < np) :
    (price_drop_cond old_price np notifyDrop = true ↔
      (∃ po, old_price = some po ∧ np < po) ∧ notifyDrop = true) ∧
    (target_cond target_price np notifyTarget = true ↔
      (∃ t, target_price = some t ∧ np ≤ t) ∧ notifyTarget = true) ∧
    (price_drop_cond (some 10) 8 true = true ∧ target_cond (some 9) 8 true = true) := by
  refine ⟨?_, ?_, by norm_num [price_drop_cond, target_cond]⟩
  · cases old_price with
    | none => simp [price_drop_cond]
    | some po =>
        simp only [price_drop_cond, Bool.and_eq_true, decide_eq_true_eq]
        constructor
        · rintro ⟨⟨-, hlt⟩, hen⟩
          exact ⟨⟨po, rfl, hlt⟩, hen⟩
        · rintro ⟨⟨po', hpo, hlt⟩, hen⟩
          cases hpo
          have hne : po ≠ 0 := by
            intro h0; rw [h0] at hlt; exact absurd (hpos.trans hlt) (lt_irrefl 0)
          exact ⟨⟨hne, hlt⟩, hen⟩
  · cases target_price with
    | none => simp [target_cond]
    | some t =>
        simp only [target_cond, Bool.and_eq_true, decide_eq_true_eq]
        constructor
        · rintro ⟨⟨-, hle⟩, hen⟩
          exact ⟨⟨t, rfl, hle⟩, hen⟩
        · rintro ⟨⟨t', ht, hle⟩, hen⟩
          cases ht
          have hne : t ≠ 0 := by
            intro h0; rw [h0] at hle; exact absurd (hpos.trans_le hle) (lt_irrefl 0)
          exact ⟨⟨hne, hle⟩, hen⟩

/-- Witness for C3: the claim's theorem applied at the concrete
observation old 10, new 8, target 9, both settings enabled — both
notifications fire. -/
theorem claim_C3_witness :
    price_drop_cond (some 10) 8 true = true ∧ target_cond (some 9) 8 true = true :=
  (claim_C3 (some 10) (some 9) 8 true true (by norm_num)).2.2

/-- The error surfaced by `add_product` when the `INSERT` violates the
schema's `url TEXT NOT NULL UNIQUE` constraint (src/main.py:48 and
261-262: `sqlite3.IntegrityError` → "This URL is already being
tracked"). -/
inductive AddError
  | duplicateUrl
  deriving DecidableEq

/-- `add_product`'s store interaction (src/main.py:242-264): `INSERT
INTO products (name, url, target_price, selector)`.  The schema's
`UNIQUE` constraint on `url` (src/main.py:48) ranges over every row of
the table — active or not — so the insert fails whenever any existing
row carries the same url.  `nextId` models `AUTOINCREMENT`; the new row
gets `current_price = NULL`, `last_checked = NULL`, `active = 1`. -/
def add_product (db : DB) (nextId : Nat) (name url : String)
    (target_price : Option ℚ) (selector : Option String) : Except AddError DB :=
  if db.products.any (fun p => p.url == url) then .error .duplicateUrl
  else .ok { db with
    products := db.products ++
      [{ pid := nextId, name := name, url := url, selector := selector,
         target_price := target_price, current_price := none,
         last_checked := none, active := true }] }

/-- Counterexample to C2 as stated: the claim says a URL equal only to a
deactivated product's URL can be re-added, but the `UNIQUE` constraint
in the schema ranges over all rows, so the insert fails even though the
only product holding the URL has `active = 0`. -/
theorem claim_C2_counterexample :
    ¬ ∀ (db : DB) (nextId : Nat) (name url : String) (t : Option ℚ)
        (sel : Option String),
        (∀ p ∈ db.products, p.url = url → p.active = false) →
        ∃ db', add_product db nextId name url t sel = Except.ok db' := by
  intro hclaim
  obtain ⟨db', hdb'⟩ := hclaim
    ⟨[{ pid := 1, name := "old", url := "u", selector := none, target_price := none,
        current_price := none, last_checked := none, active := false }], []⟩
    2 "fresh" "u" none none (by intro p hp _; simp at hp; rw [hp])
  rw [show add_product
      ⟨[{ pid := 1, name := "old", url := "u", selector := none, target_price := none,
          current_price := none, last_checked := none, active := false }], []⟩
      2 "fresh" "u" none none = Except.error AddError.duplicateUrl from rfl] at hdb'
  exact absurd hdb' (by simp)

/-- Claim C2 (amended): URL uniqueness is enforced across ALL product
rows, not only active ones: adding a product whose URL equals the URL of
any existing row — active or deactivated — fails with the duplicate-URL
error, and adding a URL present in no row succeeds, appending the new
active row. -/
theorem claim_C2 (db : DB) (nextId : Nat) (name url : String)
    (target_price : Option ℚ) (selector : Option String) :
    ((∃ p ∈ db.products, p.url = url) →
      add_product db nextId name url target_price selector
        = Except.error AddError.duplicateUrl) ∧
    ((∀ p ∈ db.products, p.url ≠ url) →
      add_product db nextId name url target_price selector
        = Except.ok { db with
            products := db.products ++
              [{ pid := nextId, name := name, url := url, selector := selector,
                 target_price := target_price, current_price := none,
                 last_checked := none, active := true }] }) := by
  constructor
  · rintro ⟨p, hp, hurl⟩
    unfold add_product
    rw [if_pos]
    rw [List.any_eq_true]
    exact ⟨p, hp, by simp [hurl]⟩
  · intro hfresh
    unfold add_product
    rw [if_neg]
    rw [List.any_eq_true]
    rintro ⟨p, hp, heq⟩
    exact hfresh p hp (by simpa using heq)

/-- Witness for C2 (amended): on a store holding a deactivated product
with url `"u"` and an active product with url `"v"`, adding url `"u"`
fails with the duplicate error and adding the fresh url `"w"` succeeds. -/
theorem claim_C2_witness :
    add_product
      ⟨[{ pid := 1, name := "a", url := "u", selector := none, target_price := none,
          current_price := none, last_checked := none, active := false },
        { pid := 2, name := "b", url := "v", selector := none, target_price := none,
          current_price := none, last_checked := none, active := true }], []⟩
      3 "c" "u" none none = Except.error AddError.duplicateUrl ∧
    add_product
      ⟨[{ pid := 1, name := "a", url := "u", selector := none, target_price := none,
          current_price := none, last_checked := none, active := false },
        { pid := 2, name := "b", url := "v", selector := none, target_price := none,
          current_price := none, last_checked := none, active := true }], []⟩
      3 "c" "w" none none = Except.ok
      ⟨[{ pid := 1, name := "a", url := "u", selector := none, target_price := none,
          current_price := none, last_checked := none, active := false },
        { pid := 2, name := "b", url := "v", selector := none, target_price := none,
          current_price := none, last_checked := none, active := true },
        { pid := 3, name := "c", url := "w", selector := none, target_price := none,
          current_price := none, last_checked := none, active := true }], []⟩ := by
  constructor
  · exact (claim_C2 _ 3 "c" "u" none none).1 (by simp)
  · exact (claim_C2 _ 3 "c" "w" none none).2 (by simp)

/-- `delete_product`'s store interaction (src/main.py:559-577): the
selected row's displayed name is read back from the tree view and the
update is `UPDATE products SET active = 0 WHERE name = ?` — keyed by
display name, not by id. -/
def delete_product (db : DB) (name : String) : DB :=
  { db with
    products := db.products.map (fun p =>
      if p.name = name then { p with active := false } else p) }

/-- Claim C10: soft-delete is keyed by display name: every product row
whose name equals the selected name is deactivated (so two active
products sharing a display name are both deactivated), with every other
field of those rows and every other row and the whole history left
unchanged. -/
theorem claim_C10 (db : DB) (name : String) :
    (delete_product db name).history = db.history ∧
    ∀ i : Nat, (delete_product db name).products.get? i
      = (db.products.get? i).map (fun p =>
          if p.name = name then
            { pid := p.pid, name := p.name, url := p.url, selector := p.selector,
              target_price := p.target_price, current_price := p.current_price,
              last_checked := p.last_checked, active := false }
          else p) := by
  refine ⟨rfl, ?_⟩
  intro i
  unfold delete_product
  simp only [List.get?_map]

/-- Witness for C10: the claim's theorem applied to a store holding two
active products that share the name `"x"` plus one named `"y"`; rows 0
and 1 both come back deactivated, row 2 and the history are untouched. -/
theorem claim_C10_witness :
    (delete_product
      ⟨[{ pid := 1, name := "x", url := "u1", selector := none, target_price := none,
          current_price := none, last_checked := none, active := true },
        { pid := 2, name := "x", url := "u2", selector := none, target_price := none,
          current_price := none, last_checked := none, active := true },
        { pid := 3, name := "y", url := "u3", selector := none, target_price := none,
          current_price := none, last_checked := none, active := true }], [⟨1, 5⟩]⟩
      "x").history = [⟨1, 5⟩] ∧
    (delete_product
      ⟨[{ pid := 1, name := "x", url := "u1", selector := none, target_price := none,
          current_price := none, last_checked := none, active := true },
        { pid := 2, name := "x", url := "u2", selector := none, target_price := none,
          current_price := none, last_checked := none, active := true },
        { pid := 3, name := "y", url := "u3", selector := none, target_price := none,
          current_price := none, last_checked := none, active := true }], [⟨1, 5⟩]⟩
      "x").products.get? 1
      = some { pid := 2, name := "x", url := "u2", selector := none,
               target_price := none, current_price := none, last_checked := none,
               active := false } := by
  constructor
  · exact (claim_C10 _ "x").1
  · rw [(claim_C10 _ "x").2 1]
    simp

/-! ### Characterization of one check cycle

The per-product fold of `check_all_prices` is characterized row-wise:
products are rewritten by `rowStepMem` (keyed by membership of their id
in the processed worklist), and the history grows by exactly the rows
`cycleRows` of the worklist.  Both lemmas are proved by induction on the
worklist; id-distinctness (`id INTEGER PRIMARY KEY`) makes the
per-product statements of C6 follow. -/

section CycleLemmas

variable (notifyDrop notifyTarget : Bool) (now : Nat)
variable (detect : Nat → Except Unit (Option ℚ))

/-- How one cycle rewrites a product row whose id belongs to the
processed worklist. -/
def rowStepMem (pids : List Nat) (q : Product) : Product :=
  if q.pid ∈ pids then
    match detect q.pid with
    | .ok (some v) => if v ≠ 0 then { q with current_price := some v,
                                             last_checked := some now }
                      else q
    | _ => q
  else q

/-- The history row (if any) inserted for one product of the worklist. -/
def contrib (p : Product) : List HistRow :=
  match detect p.pid with
  | .ok (some v) => if v ≠ 0 then [⟨p.pid, v⟩] else []
  | _ => []

/-- All history rows inserted by one cycle over a worklist, in order. -/
def cycleRows (l : List Product) : List HistRow :=
  (l.map (contrib detect)).join

theorem check_one_products (p : Product) (st : DB × List PriceAlert) :
    (check_one notifyDrop notifyTarget now (detect p.pid) st p).1.products
      = match detect p.pid with
        | .ok (some v) =>
            if v ≠ 0 then upd_price now v p.pid st.1.products else st.1.products
        | _ => st.1.products := by
  unfold check_one
  cases hd : detect p.pid with
  | error e => rfl
  | ok newPrice =>
      cases newPrice with
      | none => simp [truthyQ]
      | some v =>
          by_cases hv : v ≠ 0
          · simp [truthyQ, hv]
          · simp [truthyQ, hv]

theorem check_one_history (p : Product) (st : DB × List PriceAlert) :
    (check_one notifyDrop notifyTarget now (detect p.pid) st p).1.history
      = st.1.history ++ contrib detect p := by
  unfold check_one contrib
  cases hd : detect p.pid with
  | error e => simp
  | ok newPrice =>
      cases newPrice with
      | none => simp [truthyQ]
      | some v =>
          by_cases hv : v ≠ 0
          · simp [truthyQ, hv]
          · simp [truthyQ, hv]

theorem check_fold_products (l : List Product) (st : DB × List PriceAlert)
    (hnd : (l.map (fun p => p.pid)).Nodup) :
    (l.foldl (fun st p => check_one notifyDrop notifyTarget now (detect p.pid) st p)
        st).1.products
      = st.1.products.map (rowStepMem now detect (l.map (fun p => p.pid))) := by
  induction l generalizing st with
  | nil =>
      simp only [List.foldl_nil, List.map_nil]
      have h0 : rowStepMem now detect ([] : List Nat) = id := by
        funext q; simp [rowStepMem]
      rw [h0, List.map_id]
  | cons p l ih =>
      simp only [List.map_cons, List.nodup_cons] at hnd
      obtain ⟨hpn, hnd'⟩ := hnd
      simp only [List.foldl_cons, List.map_cons]
      rw [ih _ hnd', check_one_products]
      cases hd : detect p.pid with
      | error e =>
          dsimp only
          apply List.map_congr_left
          intro q _
          by_cases hq : q.pid = p.pid
          · simp [rowStepMem, hq, hpn, hd]
          · simp [rowStepMem, hq]
      | ok newPrice =>
          cases newPrice with
          | none =>
              dsimp only
              apply List.map_congr_left
              intro q _
              by_cases hq : q.pid = p.pid
              · simp [rowStepMem, hq, hpn, hd]
              · simp [rowStepMem, hq]
          | some v =>
              by_cases hv : v ≠ 0
              · dsimp only
                rw [if_pos hv]
                dsimp only [upd_price]
                rw [List.map_map]
                apply List.map_congr_left
                intro q _
                by_cases hq : q.pid = p.pid
                · simp only [Function.comp_apply, if_pos hq, rowStepMem]
                  rw [if_neg (by simpa [hq] using hpn), if_pos (by simp [hq]), hq, hd]
                  simp [hv]
                · simp only [Function.comp_apply, if_neg hq, rowStepMem]
                  by_cases hmem : q.pid ∈ l.map (fun p => p.pid)
                  · rw [if_pos hmem, if_pos (by simp [hmem])]
                  · rw [if_neg hmem, if_neg (by simp [hmem, hq])]
              · dsimp only
                rw [if_neg hv]
                apply List.map_congr_left
                intro q _
                by_cases hq : q.pid = p.pid
                · simp [rowStepMem, hq, hpn, hd, if_neg hv]
                · simp [rowStepMem, hq]

theorem check_fold_history (l : List Product) (st : DB × List PriceAlert) :
    (l.foldl (fun st p => check_one notifyDrop notifyTarget now (detect p.pid) st p)
        st).1.history
      = st.1.history ++ cycleRows detect l := by
  induction l generalizing st with
  | nil => simp [cycleRows]
  | cons p l ih =>
      simp only [List.foldl_cons]
      rw [ih]
      rw [check_one_history]
      have hjoin : cycleRows detect (p :: l)
          = contrib detect p ++ cycleRows detect l := by
        simp [cycleRows]
      rw [hjoin, List.append_assoc]

end CycleLemmas

theorem find?_map_pid (x : Nat) (g : Product → Product)
    (hg : ∀ q, (g q).pid = q.pid) :
    ∀ ps : List Product,
      (ps.map g).find? (fun q => q.pid == x) = (ps.find? (fun q => q.pid == x)).map g := by
  intro ps
  induction ps with
  | nil => simp
  | cons a ps ih =>
      by_cases ha : a.pid = x
      · rw [List.map_cons, List.find?_cons_of_pos, List.find?_cons_of_pos]
        · simp
        · simp [ha]
        · simp [hg, ha]
      · rw [List.map_cons, List.find?_cons_of_neg, List.find?_cons_of_neg, ih]
        · simp [ha]
        · simp [hg, ha]

theorem find?_pid_self {ps : List Product}
    (hnd : (ps.map (fun p => p.pid)).Nodup) {p : Product} (hp : p ∈ ps) :
    ps.find? (fun q => q.pid == p.pid) = some p := by
  induction ps with
  | nil => exact absurd hp (by simp)
  | cons a ps ih =>
      simp only [List.map_cons, List.nodup_cons] at hnd
      obtain ⟨han, hnd'⟩ := hnd
      rcases List.mem_cons.mp hp with h | h
      · subst h
        rw [List.find?_cons_of_pos _ (by simp)]
      · have hne : a.pid ≠ p.pid := by
          intro he
          exact han (he ▸ List.mem_map.mpr ⟨p, h, rfl⟩)
        rw [List.find?_cons_of_neg _ (by simp [hne])]
        exact ih hnd' h

theorem rowStepMem_pid (now : Nat) (detect : Nat → Except Unit (Option ℚ))
    (pids : List Nat) (q : Product) : (rowStepMem now detect pids q).pid = q.pid := by
  unfold rowStepMem
  by_cases hmem : q.pid ∈ pids
  · rw [if_pos hmem]
    cases detect q.pid with
    | error e => rfl
    | ok o =>
        cases o with
        | none => rfl
        | some v => by_cases hv : v ≠ 0 <;> simp [hv]
  · rw [if_neg hmem]

theorem cycleRows_filter_not_mem (detect : Nat → Except Unit (Option ℚ)) (x : Nat)
    {l : List Product} (hx : x ∉ l.map (fun p => p.pid)) :
    (cycleRows detect l).filter (fun r => r.product_id == x) = [] := by
  induction l with
  | nil => simp [cycleRows]
  | cons a l ih =>
      simp only [List.map_cons, List.mem_cons, not_or] at hx
      obtain ⟨hax, hx'⟩ := hx
      have hrec := ih hx'
      have hjoin : cycleRows detect (a :: l) = contrib detect a ++ cycleRows detect l := by
        simp [cycleRows]
      rw [hjoin, List.filter_append, hrec, List.append_nil]
      unfold contrib
      cases detect a.pid with
      | error e => rfl
      | ok o =>
          cases o with
          | none => rfl
          | some v => by_cases hv : v ≠ 0 <;> simp [hv, Ne.symm hax]

theorem cycleRows_filter_self (detect : Nat → Except Unit (Option ℚ))
    {l : List Product} (hnd : (l.map (fun p => p.pid)).Nodup)
    {p : Product} (hp : p ∈ l) :
    (cycleRows detect l).filter (fun r => r.product_id == p.pid) = contrib detect p := by
  induction l with
  | nil => exact absurd hp (by simp)
  | cons a l ih =>
      simp only [List.map_cons, List.nodup_cons] at hnd
      obtain ⟨han, hnd'⟩ := hnd
      have hjoin : cycleRows detect (a :: l) = contrib detect a ++ cycleRows detect l := by
        simp [cycleRows]
      rcases List.mem_cons.mp hp with h | h
      · subst h
        rw [hjoin, List.filter_append, cycleRows_filter_not_mem detect p.pid han]
        rw [List.append_nil]
        unfold contrib
        cases detect p.pid with
        | error e => rfl
        | ok o =>
            cases o with
            | none => rfl
            | some v => by_cases hv : v ≠ 0 <;> simp [hv]
      · have hne : a.pid ≠ p.pid := by
          intro he
          exact han (he ▸ List.mem_map.mpr ⟨p, h, rfl⟩)
        rw [hjoin, List.filter_append, ih hnd' h]
        have hca : (contrib detect a).filter (fun r => r.product_id == p.pid) = [] := by
          unfold contrib
          cases detect a.pid with
          | error e => rfl
          | ok o =>
              cases o with
              | none => rfl
              | some v => by_cases hv : v ≠ 0 <;> simp [hv, hne]
        rw [hca, List.nil_append]

/-- Claim C6: one cycle isolates per-product failures.  In the model the
per-product `except` clause is the `.error` branch of `check_one`, so
`check_all_prices` is a total function — the cycle always completes.
For a store with distinct product ids and any active product `p` of the
snapshot: if detection for `p` raises, `p`'s row (current price and
last-checked included) and `p`'s slice of the history are unchanged;
if detection succeeds with a (positive) price `v`, `p`'s row gets
`current_price = v` and `last_checked = now` and exactly one history row
`(p.pid, v)` is appended to `p`'s slice — independently of what happens
to the other products. -/
theorem claim_C6 (notifyDrop notifyTarget : Bool) (now : Nat)
    (detect : Nat → Except Unit (Option ℚ)) (db : DB)
    (hnd : (db.products.map (fun p => p.pid)).Nodup)
    (p : Product) (hp : p ∈ db.products) (hact : p.active = true) :
    (detect p.pid = Except.error () →
      (check_all_prices notifyDrop notifyTarget now detect db).1.products.find?
          (fun q => q.pid == p.pid) = some p ∧
      (check_all_prices notifyDrop notifyTarget now detect db).1.history.filter
          (fun r => r.product_id == p.pid)
        = db.history.filter (fun r => r.product_id == p.pid)) ∧
    (∀ v : ℚ, detect p.pid = Except.ok (some v) → 0 < v →
      (check_all_prices notifyDrop notifyTarget now detect db).1.products.find?
          (fun q => q.pid == p.pid)
        = some { p with current_price := some v, last_checked := some now } ∧
      (check_all_prices notifyDrop notifyTarget now detect db).1.history.filter
          (fun r => r.product_id == p.pid)
        = db.history.filter (fun r => r.product_id == p.pid) ++ [⟨p.pid, v⟩]) := by
  have hsub : List.Sublist
      ((db.products.filter (fun p => p.active)).map (fun p => p.pid))
      (db.products.map (fun p => p.pid)) :=
    (db.products.filter_sublist (p := fun p => p.active)).map _
  have hlnd : ((db.products.filter (fun p => p.active)).map (fun p => p.pid)).Nodup :=
    hnd.sublist hsub
  have hpl : p ∈ db.products.filter (fun p => p.active) :=
    List.mem_filter.mpr ⟨hp, hact⟩
  have hpmem : p.pid ∈ (db.products.filter (fun p => p.active)).map (fun p => p.pid) :=
    List.mem_map.mpr ⟨p, hpl, rfl⟩
  have hprod :
      (check_all_prices notifyDrop notifyTarget now detect db).1.products.find?
          (fun q => q.pid == p.pid)
        = some (rowStepMem now detect
            ((db.products.filter (fun p => p.active)).map (fun p => p.pid)) p) := by
    unfold check_all_prices
    rw [check_fold_products notifyDrop notifyTarget now detect _ _ hlnd]
    rw [find?_map_pid p.pid _ (rowStepMem_pid now detect _)]
    rw [find?_pid_self hnd hp]
    rfl
  have hhist :
      (check_all_prices notifyDrop notifyTarget now detect db).1.history.filter
          (fun r => r.product_id == p.pid)
        = db.history.filter (fun r => r.product_id == p.pid) ++ contrib detect p := by
    unfold check_all_prices
    rw [check_fold_history, List.filter_append,
      cycleRows_filter_self detect hlnd hpl]
  constructor
  · intro herr
    constructor
    · rw [hprod]
      unfold rowStepMem
      rw [if_pos hpmem, herr]
    · rw [hhist]
      unfold contrib
      rw [herr, List.append_nil]
  · intro v hok hvpos
    have hv : v ≠ 0 := ne_of_gt hvpos
    constructor
    · rw [hprod]
      unfold rowStepMem
      rw [if_pos hpmem, hok]
      simp [hv]
    · rw [hhist]
      unfold contrib
      rw [hok]
      simp [hv]

/-- Concrete two-product store for the C6 witness: product 1 fails, has
a prior price and one history row; product 2 succeeds. -/
def wProdA : Product :=
  { pid := 1, name := "A", url := "uA", selector := none, target_price := none,
    current_price := some 10, last_checked := some 4, active := true }

def wProdB : Product :=
  { pid := 2, name := "B", url := "uB", selector := none, target_price := none,
    current_price := none, last_checked := none, active := true }

def wDbC6 : DB := ⟨[wProdA, wProdB], [⟨1, 3⟩]⟩

/-- Detection oracle of the C6 witness: product 1 raises, product 2
detects the price 7. -/
def wDetectC6 : Nat → Except Unit (Option ℚ) :=
  fun i => if i = 1 then Except.error () else Except.ok (some 7)

/-- Witness for C6: the claim's theorem applied to the concrete store
`wDbC6`: the failing product 1 keeps its row and history slice, the
succeeding product 2 is updated and gets its history row. -/
theorem claim_C6_witness :
    ((check_all_prices true true 99 wDetectC6 wDbC6).1.products.find?
        (fun q => q.pid == wProdA.pid) = some wProdA ∧
     (check_all_prices true true 99 wDetectC6 wDbC6).1.history.filter
        (fun r => r.product_id == wProdA.pid)
       = wDbC6.history.filter (fun r => r.product_id == wProdA.pid)) ∧
    ((check_all_prices true true 99 wDetectC6 wDbC6).1.products.find?
        (fun q => q.pid == wProdB.pid)
       = some { wProdB with current_price := some 7, last_checked := some 99 } ∧
     (check_all_prices true true 99 wDetectC6 wDbC6).1.history.filter
        (fun r => r.product_id == wProdB.pid)
       = wDbC6.history.filter (fun r => r.product_id == wProdB.pid)
         ++ [⟨wProdB.pid, 7⟩]) :=
  ⟨(claim_C6 true true 99 wDetectC6 wDbC6 (by simp [wDbC6, wProdA, wProdB])
      wProdA (List.mem_cons_self _ _) rfl).1 rfl,
   (claim_C6 true true 99 wDetectC6 wDbC6 (by simp [wDbC6, wProdA, wProdB])
      wProdB (by simp [wDbC6]) rfl).2 7 rfl (by norm_num)⟩

theorem cycleRows_mem {detect : Nat → Except Unit (Option ℚ)}
    {l : List Product} {r : HistRow} (hr : r ∈ cycleRows detect l) :
    ∃ p ∈ l, ∃ v : ℚ, detect p.pid = Except.ok (some v) ∧ v ≠ 0 ∧
      r = ⟨p.pid, v⟩ := by
  induction l with
  | nil => exact absurd hr (by simp [cycleRows])
  | cons a l ih =>
      have hjoin : cycleRows detect (a :: l)
          = contrib detect a ++ cycleRows detect l := by
        simp [cycleRows]
      rw [hjoin] at hr
      rcases List.mem_append.mp hr with h | h
      · unfold contrib at h
        cases hd : detect a.pid with
        | error e => rw [hd] at h; exact absurd h (by simp)
        | ok o =>
            cases o with
            | none => rw [hd] at h; exact absurd h (by simp)
            | some v =>
                rw [hd] at h
                by_cases hv : v ≠ 0
                · have hrv : r = ⟨a.pid, v⟩ := by simpa [hv] using h
                  exact ⟨a, List.mem_cons_self _ _, v, hd, hv, hrv⟩
                · exact absurd h (by simp [hv])
      · obtain ⟨p, hpl, v, hd, hv, hrv⟩ := ih h
        exact ⟨p, List.mem_cons_of_mem _ hpl, v, hd, hv, hrv⟩

/-- Claim C9: every stored history row has a strictly positive price.
If every price already in the history is positive and every successful
detection outcome is a value `get_price` can return, then after one
cycle every history row still has a positive price: rows are appended
only for truthy detected prices, and `get_price` only ever returns
positive values (`get_price_pos`). -/
theorem claim_C9 (notifyDrop notifyTarget : Bool) (now : Nat)
    (detect : Nat → Except Unit (Option ℚ)) (db : DB)
    (hhist : ∀ r ∈ db.history, 0 < r.price)
    (hdet : ∀ i res, detect i = Except.ok res →
      ∃ (env : FetchEnv) (sel : Option String), res = get_price env sel) :
    ∀ r ∈ (check_all_prices notifyDrop notifyTarget now detect db).1.history,
      0 < r.price := by
  intro r hr
  unfold check_all_prices at hr
  rw [check_fold_history] at hr
  rcases List.mem_append.mp hr with h | h
  · exact hhist r h
  · obtain ⟨p, _, v, hd, _, hrv⟩ := cycleRows_mem h
    obtain ⟨env, sel, heq⟩ := hdet p.pid (some v) hd
    have hv : 0 < v := get_price_pos heq.symm
    rw [hrv]
    exact hv

/-- Concrete soup for the C9 witness: its `.price` element reads
`$19.99`. -/
def wSoupC9 : Soup :=
  { select := fun s => if s == ".price" then ["$19.99"] else [],
    findall := fun _ => [] }

def wEnvC9 : FetchEnv := ⟨Except.ok wSoupC9, Except.error ()⟩

/-- Detection oracle of the C9 witness: every product's detection is the
real `get_price` run against `wEnvC9`. -/
def wDetectC9 : Nat → Except Unit (Option ℚ) :=
  fun _ => Except.ok (get_price wEnvC9 none)

def wDbC9 : DB :=
  ⟨[{ pid := 1, name := "A", url := "uA", selector := none, target_price := none,
      current_price := none, last_checked := none, active := true }], []⟩

/-- Witness for C9: the claim's theorem applied to a concrete one-product
store whose detection factors through `get_price`; every row of the
resulting history has a positive price. -/
theorem claim_C9_witness :
    (check_all_prices true true 5 wDetectC9 wDbC9).1.history.all
      (fun r => decide (0 < r.price)) = true := by
  rw [List.all_eq_true]
  intro r hr
  rw [decide_eq_true_eq]
  refine claim_C9 true true 5 wDetectC9 wDbC9 (by simp [wDbC9]) ?_ r hr
  intro i res h
  refine ⟨wEnvC9, none, ?_⟩
  have h' : (Except.ok (get_price wEnvC9 none) : Except Unit (Option ℚ))
      = Except.ok res := h
  simpa using h'.symm

/-! ### Tracking session

`tracking_active` is the shared flag; `start_tracking`
(src/main.py:522-533) flips it and spawns the loop, `stop_tracking`
(src/main.py:535-539) clears it.  The loop body (src/main.py:541-557)
runs a cycle, parses the interval with `int(...)`, then waits
`interval_minutes * 60` iterations of `time.sleep(1)`, checking the flag
before each sleep; any exception in the body is caught by the blanket
handler, which sleeps 60 seconds and retries. -/

/-- Model of Python `int(s)`: optional surrounding whitespace, optional
sign, then a nonempty run of ASCII digits with single underscores
allowed strictly between digits; anything else raises (`none`). -/
def py_int (s : String) : Option Int :=
  let t := ((s.toList.dropWhile (fun c => c.isWhitespace)).reverse.dropWhile
      (fun c => c.isWhitespace)).reverse
  let signed :=
    match t with
    | '-' :: rest => (true, rest)
    | '+' :: rest => (false, rest)
    | _ => (false, t)
  let cs := signed.2
  if cs ≠ [] ∧ cs.all (fun c => c.isDigit || c == '_')
      ∧ cs.head? ≠ some '_' ∧ cs.reverse.head? ≠ some '_'
      ∧ (cs.zip cs.tail).all (fun c => !(c.1 == '_' && c.2 == '_')) then
    let v : Int := (digitsVal (cs.filter (fun c => c != '_')) : Int)
    some (if signed.1 then -v else v)
  else none

/-- Result reported by `start_tracking` (src/main.py:522-533): either the
already-active info box or the success box.  `start_tracking` reads no
configuration at all — there is no error outcome in the code. -/
inductive StartResult
  | alreadyActive
  | started
  deriving DecidableEq

/-- `start_tracking` (src/main.py:522-533) acting on the
`tracking_active` flag: a no-op report when already active, otherwise
set the flag, spawn the loop thread, and report success. -/
def start_tracking : Bool → Bool × StartResult
  | true => (true, StartResult.alreadyActive)
  | false => (true, StartResult.started)

/-- What one iteration of `tracking_loop` (src/main.py:543-557) does
after its `check_all_prices` call: parse the interval and enter the
fine-grained wait of `interval_minutes * 60` one-second polls, or — when
`int(...)` raises — fall into the `except` handler, which sleeps the
fixed 60-second recovery delay and lets the loop retry. -/
inductive IterOutcome
  | wait (polls : Nat)
  | recoverySleep (seconds : Nat)
  deriving DecidableEq

def tracking_loop_iter (interval_str : String) : IterOutcome :=
  match py_int interval_str with
  | some m => IterOutcome.wait ((m * 60).toNat)
  | none => IterOutcome.recoverySleep 60

/-- The fine-grained wait of `tracking_loop` (src/main.py:550-553):
`for _ in range(n): if not self.tracking_active: break; time.sleep(1)`.
`flag i` is the value of `tracking_active` observed at the `i`-th poll;
the result counts the `time.sleep(1)` calls executed — i.e. the seconds
spent waiting, since every sleep is exactly one second long. -/
def wait_sleeps (flag : Nat → Bool) : Nat → Nat → Nat
  | 0, _ => 0
  | n + 1, i => if flag i then wait_sleeps flag n (i + 1) + 1 else 0

theorem wait_sleeps_le {flag : Nat → Bool} :
    ∀ (n i k : Nat), i ≤ k → flag k = false → wait_sleeps flag n i ≤ k - i := by
  intro n
  induction n with
  | zero => intro i k _ _; simp [wait_sleeps]
  | succ n ih =>
      intro i k hik hk
      unfold wait_sleeps
      by_cases hi : flag i
      · rw [if_pos hi]
        have hne : i ≠ k := by
          intro he; rw [he, hk] at hi; exact absurd hi (by simp)
        have hik' : i + 1 ≤ k := Nat.lt_of_le_of_ne hik hne
        have := ih (i + 1) k hik' hk
        omega
      · rw [if_neg hi]
        exact Nat.zero_le _

/-- Claim C7: while waiting out the configured interval of
`m * 60` one-second polls, the cancellation flag is checked before every
single `time.sleep(1)`, so if the flag is observed false at poll `k` the
loop sleeps at most `k` further seconds in total — it exits within the
one-second poll granularity of the stop request instead of sleeping out
the full `m * 60` seconds; and an uncancelled wait sleeps the whole
interval. -/
theorem claim_C7 (flag : Nat → Bool) (m k : Nat) :
    (flag k = false → wait_sleeps flag (m * 60) 0 ≤ k) ∧
    ((∀ i, flag i = true) → wait_sleeps flag (m * 60) 0 = m * 60) := by
  constructor
  · intro hk
    have := wait_sleeps_le (m * 60) 0 k (Nat.zero_le k) hk
    simpa using this
  · intro hall
    have hgen : ∀ (n i : Nat), wait_sleeps flag n i = n := by
      intro n
      induction n with
      | zero => intro i; rfl
      | succ n ih =>
          intro i
          unfold wait_sleeps
          rw [if_pos (hall i), ih (i + 1)]
    exact hgen (m * 60) 0

/-- Witness for C7: with a 1-minute interval (60 polls) and a stop
observed at poll 3, the loop sleeps at most 3 more seconds; with the
flag never cleared, it sleeps the full 60. -/
theorem claim_C7_witness :
    wait_sleeps (fun i => decide (i ≠ 3)) (1 * 60) 0 ≤ 3 ∧
    wait_sleeps (fun _ => true) (1 * 60) 0 = 1 * 60 :=
  ⟨(claim_C7 (fun i => decide (i ≠ 3)) 1 3).1 (by decide),
   (claim_C7 (fun _ => true) 1 0).2 (fun i => rfl)⟩

/-- Counterexample to C8 as stated: with the malformed interval value
`"abc"` (`int` raises on it), starting tracking reports plain success —
`start_tracking` never reads, validates, or reports on the interval, so
no configuration error reaches the caller at that boundary — and the
loop iteration that does hit the `int(...)` failure lands in the blanket
`except`, which sleeps the 60-second recovery delay and retries, i.e.
the error is absorbed inside the running loop rather than surfaced. -/
theorem claim_C8_counterexample :
    py_int "abc" = none ∧
    start_tracking false = (true, StartResult.started) ∧
    tracking_loop_iter "abc" = IterOutcome.recoverySleep 60 := by
  refine ⟨?_, rfl, ?_⟩
  · decide
  · have h : py_int "abc" = none := by decide
    unfold tracking_loop_iter
    rw [h]

/-- Claim C8 (amended): a malformed check-interval value is never
surfaced to the caller: `start_tracking` starts the loop and reports
success without touching the interval, and each loop iteration's
`int(...)` failure is caught by the loop's blanket handler, which waits
the fixed 60-second recovery delay and retries indefinitely — the
configuration error is silently absorbed inside the running loop. -/
theorem claim_C8 (s : String) (h : py_int s = none) :
    start_tracking false = (true, StartResult.started) ∧
    start_tracking true = (true, StartResult.alreadyActive) ∧
    tracking_loop_iter s = IterOutcome.recoverySleep 60 := by
  refine ⟨rfl, rfl, ?_⟩
  unfold tracking_loop_iter
  rw [h]

/-- Witness for C8 (amended): the theorem applied at the concrete
malformed interval string `"sixty"`. -/
theorem claim_C8_witness :
    start_tracking false = (true, StartResult.started) ∧
    start_tracking true = (true, StartResult.alreadyActive) ∧
    tracking_loop_iter "sixty" = IterOutcome.recoverySleep 60 :=
  claim_C8 "sixty" (by decide)

end PriceTracker
